import Mathlib

/-!
The upload handler of file-upload-to-bucket.

A shallow embedding of `web/handler/errors.go` and `web/handler/handler.go`.

The handler talks to three libraries: `mime/multipart` (the parts of the
request body), `cloud.google.com/go/storage` (the bucket) and `net/http`
(the response).  Each is embedded by the results its calls give back:

* a request carries the result of `r.MultipartReader()` and, call after
  call, the results of `mpr.NextPart()`;
* a part carries its `FormName()`, its `FileName()`, the bytes its `Read`
  yields and the error `Read` ends with (`io.EOF` at a regular end);
* a bucket carries its finalised objects, the faults its writer, `Close`
  and `Attrs` report, and the log of the calls made on it.

A Go string is a sequence of bytes.  The strings that carry bytes of the
request into the bucket (the content of the name part, a file name, an
object key) are kept as these bytes, of type `GoString`; the fixed texts the
handler compares or prints (field names, messages, links) are Lean strings.
Payloads are lists of bytes.
-/

namespace handler

/-! ## Errors (`errors.go`) -/

/-- Go error values.  `validationError` is the handler's own error type,
`wrapf msg cause` is `fmt.Errorf(msg + ": %w", cause)`, `eof` is the sentinel
`io.EOF`, and `lib` is any other error value of a library (it is not a
`validationError` and unwraps to nothing). -/
inductive GoError where
  | eof
  | lib (msg : String)
  | validationError (msg : String)
  | wrapf (msg : String) (cause : GoError)
  deriving DecidableEq, Repr

/-- The Go interface type `error`: `none` is `nil`. -/
abbrev error := Option GoError

/-- The method `Error() string`.  For a `validationError` it returns its
value; for `fmt.Errorf(msg + ": %w", cause)` the formatted text. -/
def GoError.Error : GoError → String
  | .eof => "EOF"
  | .lib msg => msg
  | .validationError msg => msg
  | .wrapf msg cause => msg ++ ": " ++ cause.Error

/-- The call `fmt.Errorf(msg + ": %w", err)`.  With a nil operand the verb
prints `%!w(<nil>)` and the result wraps nothing. -/
def Errorf (msg : String) : error → GoError
  | some err => .wrapf msg err
  | none => .lib (msg ++ ": %!w(<nil>)")

/-- The call `errors.As(err, &ve)` for `ve` of type `validationError`: the
first `validationError` on the unwrap chain of `err`, if there is one. -/
def errorsAs : GoError → Option String
  | .validationError msg => some msg
  | .wrapf _ cause => errorsAs cause
  | .eof => none
  | .lib _ => none

/-- The function `isValidationError`: a quick check of the error type
(`errors.As` reports false on a nil error). -/
def isValidationError (err : error) : Bool :=
  match err with
  | none => false
  | some e => (errorsAs e).isSome

/-! ## The multipart request (`mime/multipart`) -/

/-- A Go string whose bytes matter: the bytes themselves, in order. -/
abbrev GoString := List UInt8

/-- The Go string of a text: its UTF-8 bytes, as in a Go string literal. -/
def utf8 (s : String) : GoString :=
  s.data.flatMap String.utf8EncodeChar

/-- One part of a multipart body, as the handler sees it. -/
structure Part where
  /-- The value of `FormName()`. -/
  FormName : String
  /-- The value of `FileName()`, byte for byte. -/
  FileName : GoString
  /-- The bytes `Read` yields, in order. -/
  data : List UInt8
  /-- The error `Read` returns once `data` is used up: `io.EOF` at the end
  of the part, any other error when reading the part fails (a broken
  connection, a body that does not decode). -/
  readEnd : GoError
  deriving DecidableEq, Repr

/-- What one call of `mpr.NextPart()` returns: the pair `(*Part, error)`,
where `none` in the first place is the nil pointer. -/
structure NextPartResult where
  part : Option Part
  err : error
  deriving DecidableEq, Repr

/-- A `*multipart.Reader`: the results its coming `NextPart` calls give. -/
abbrev Reader := List NextPartResult

/-- The method `NextPart`: the next result and the reader after the call.
Past the last part it reports `io.EOF`. -/
def Reader.NextPart : Reader → NextPartResult × Reader
  | [] => (⟨none, some .eof⟩, [])
  | res :: rest => (res, rest)

/-- The contract of `NextPart`: the part is nil exactly when the error is
not. -/
def NextPartResult.sound (res : NextPartResult) : Bool :=
  res.part.isSome == res.err.isNone

/-- An `*http.Request`, as far as `upload` reads it. -/
structure Request where
  /-- The result of `r.MultipartReader()`. -/
  MultipartReader : Except GoError Reader

/-! ## Copying (`io`, `bytes`) -/

/-- The call `io.Copy(dst, src)` with a part as source: the bytes that
reached `dst` and the error.  `room` describes `dst`: `none` when writing
never fails (a `bytes.Buffer`), `some (n, werr)` when the writer takes `n`
bytes and then fails with `werr`.  A source that ends with `io.EOF` is
copied without error: `Copy` reads until EOF and does not report it. -/
def ioCopy (room : Option (Nat × GoError)) (src : Part) : List UInt8 × error :=
  match room with
  | some (n, werr) =>
    if n < src.data.length then (src.data.take n, some werr)
    else if src.readEnd = .eof then (src.data, none)
    else (src.data, some src.readEnd)
  | none =>
    if src.readEnd = .eof then (src.data, none)
    else (src.data, some src.readEnd)

/-- The method `(*bytes.Buffer).String`: the buffered bytes as a Go string,
byte for byte. -/
def bufString (buf : List UInt8) : GoString :=
  buf

/-! ## The bucket (`cloud.google.com/go/storage`) -/

/-- The calls of the storage API on a bucket and its objects. -/
inductive Call where
  | Object (key : GoString)
  | NewWriter (key : GoString)
  | Close (key : GoString)
  | Attrs (key : GoString)
  | Delete (key : GoString)
  deriving DecidableEq, Repr

/-- The type `storage.ObjectAttrs`, as far as the handler reads it. -/
structure ObjectAttrs where
  MediaLink : String
  deriving DecidableEq, Repr

/-- A `*storage.BucketHandle` with the bucket behind it.  A closed object
holds the bytes written to its writer; the newest object of a key comes
first in `objects`. -/
structure Bucket where
  /-- The finalised objects, by key. -/
  objects : List (GoString × List UInt8)
  /-- The fault of an object writer: it takes so many bytes, then fails. -/
  writeFault : Option (Nat × GoError)
  /-- The error `Close` of an object writer reports. -/
  closeFault : error
  /-- The error `Attrs` reports. -/
  attrsFault : error
  /-- The media link the backend gives the object of a key. -/
  link : GoString → String
  /-- The calls made so far, in order. -/
  calls : List Call

/-- Log one call. -/
def Bucket.record (b : Bucket) (c : Call) : Bucket :=
  { b with calls := b.calls ++ [c] }

/-- Reading an object back: the bytes of the finalised object of the key. -/
def Bucket.read (b : Bucket) (key : GoString) : Option (List UInt8) :=
  b.objects.lookup key

/-- The method `(*storage.Writer).Close` for the writer of `key` that was
given `data`: on success the object is finalised with these bytes. -/
def Bucket.Close (b : Bucket) (key : GoString) (data : List UInt8) : error × Bucket :=
  match b.closeFault with
  | some err => (some err, b.record (.Close key))
  | none => (none, { b.record (.Close key) with objects := (key, data) :: b.objects })

/-- The error `storage.ErrObjectNotExist`. -/
def ErrObjectNotExist : GoError := .lib "storage: object does not exist"

/-- The method `(*storage.ObjectHandle).Attrs`: the pair
`(*ObjectAttrs, error)` and the bucket after the call. -/
def Bucket.Attrs (b : Bucket) (key : GoString) : (Option ObjectAttrs × error) × Bucket :=
  match b.attrsFault with
  | some err => ((none, some err), b.record (.Attrs key))
  | none =>
    match b.read key with
    | none => ((none, some ErrObjectNotExist), b.record (.Attrs key))
    | some _ => ((some ⟨b.link key⟩, none), b.record (.Attrs key))

/-! ## The handler (`handler.go`) -/

/-- How a call of `upload` ends: it returns the pair `(string, error)`, or
it panics on a nil pointer. -/
inductive Outcome where
  | panicked
  | returned (u : String) (err : error)
  deriving DecidableEq, Repr

/-- A run of `upload`: how it ends and the bucket it leaves. -/
structure Run where
  outcome : Outcome
  bucket : Bucket

/-- The method `(*Handler).upload`, on the handler's bucket. -/
def upload (bucket : Bucket) (r : Request) : Run :=
  match r.MultipartReader with
  | .error err => ⟨.returned "" (some (Errorf "r.MultipartReader failure" (some err))), bucket⟩
  | .ok mpr =>
    -- HANDLE FILE RENAME
    let first := mpr.NextPart
    if first.1.err ≠ none then
      ⟨.returned "" (some (Errorf "mpr.NextPart failure on first read" first.1.err)), bucket⟩
    else
      match first.1.part with
      | none => ⟨.panicked, bucket⟩
      | some part =>
        if part.FormName ≠ "name" then
          ⟨.returned "" (some (.validationError "expected name first")), bucket⟩
        else
          let copied := ioCopy none part
          if copied.2 ≠ none ∧ copied.2 ≠ some .eof then
            ⟨.returned "" (some (Errorf "io.Copy failure for name" copied.2)), bucket⟩
          else
            let uploadFilename := bufString copied.1
            -- HANDLE FILE UPLOAD
            let second := first.2.NextPart
            if second.1.err ≠ none then
              ⟨.returned "" (some (Errorf "mpr.NextPart failure on second read" second.1.err)), bucket⟩
            else
              match second.1.part with
              | none => ⟨.panicked, bucket⟩
              | some part =>
                if part.FormName ≠ "myfile" then
                  ⟨.returned "" (some (.validationError "file required")), bucket⟩
                else
                  let uploadFilename :=
                    if uploadFilename = utf8 "" then part.FileName else uploadFilename
                  -- WRITE TO BUCKET
                  let bucket := bucket.record (.Object uploadFilename)
                  let bucket := bucket.record (.NewWriter uploadFilename)
                  let written := ioCopy bucket.writeFault part
                  if written.2 ≠ none then
                    ⟨.returned "" (some (Errorf "io.Copy failure for file" written.2)), bucket⟩
                  else
                    let closed := bucket.Close uploadFilename written.1
                    if closed.1 ≠ none then
                      ⟨.returned "" (some (Errorf "unable to close file after writing object" closed.1)),
                        closed.2⟩
                    else
                      let got := closed.2.Attrs uploadFilename
                      if got.1.2 ≠ none then
                        ⟨.returned "" (some (Errorf "cannot generate attrs for object" got.1.2)), got.2⟩
                      else
                        match got.1.1 with
                        | none => ⟨.panicked, got.2⟩
                        | some attrs => ⟨.returned attrs.MediaLink none, got.2⟩

/-- The constants `http.StatusOK`, `http.StatusBadRequest` and
`http.StatusInternalServerError`. -/
def StatusOK : Nat := 200
def StatusBadRequest : Nat := 400
def StatusInternalServerError : Nat := 500

/-- What a handler has written to its `http.ResponseWriter`. -/
structure Response where
  status : Nat
  body : String
  deriving DecidableEq, Repr

/-- The function `http.Error(w, msg, code)`: it writes the status line and
then the message with `fmt.Fprintln`, that is, followed by a newline. -/
def httpError (msg : String) (code : Nat) : Response :=
  ⟨code, msg ++ "\n"⟩

/-- The method `(*Handler).Upload`: the response it writes, `none` when
`upload` panics before anything is written.  A first write without a status
sends `http.StatusOK`. -/
def Upload (bucket : Bucket) (r : Request) : Option Response :=
  match (upload bucket r).outcome with
  | .panicked => none
  | .returned u err =>
    match err with
    | some e =>
      if isValidationError (some e) then some (httpError e.Error StatusBadRequest)
      else some (httpError "internal server error" StatusInternalServerError)
    | none => some ⟨StatusOK, u ++ "\n"⟩

/-! ## Notions of the specification -/

/-- The keys of the object writers opened on the bucket, in order. -/
def openedWriters (calls : List Call) : List GoString :=
  calls.filterMap fun c =>
    match c with
    | .NewWriter key => some key
    | _ => none

/-- The calls a run of upload adds to the log of the bucket. -/
def Run.newCalls (before : Bucket) (run : Run) : List Call :=
  run.bucket.calls.drop before.calls.length

/-- The name part and the file part of a request that passes both field-name
checks of upload: the reader opens, the first NextPart call gives a part
named "name", the copy of that part into the buffer does not stop upload,
and the second NextPart call gives a part named "myfile". -/
def fieldChecks (r : Request) : Option (Part × Part) :=
  match r.MultipartReader with
  | .error _ => none
  | .ok mpr =>
    match mpr.NextPart.1.part, mpr.NextPart.1.err with
    | some name, none =>
      if name.FormName = "name"
          ∧ ¬ ((ioCopy none name).2 ≠ none ∧ (ioCopy none name).2 ≠ some .eof) then
        match mpr.NextPart.2.NextPart.1.part, mpr.NextPart.2.NextPart.1.err with
        | some file, none => if file.FormName = "myfile" then some (name, file) else none
        | _, _ => none
      else none
    | _, _ => none

/-! ## Sample inputs -/

/-- The text of a key of ASCII bytes, as the sample backend prints it. -/
def asciiText (key : GoString) : String :=
  String.mk (key.map fun b => Char.ofNat b.toNat)

/-- A bucket without objects and without faults; it links an object by the
text of its key. -/
def sampleBucket : Bucket :=
  ⟨[], none, none, none, fun key => "https://storage.example/" ++ asciiText key, []⟩

/-- A request whose body holds the given parts, in order. -/
def requestOf (parts : List Part) : Request :=
  ⟨.ok (parts.map fun p => ⟨some p, none⟩)⟩

/-- A part of a form field without a file name, read to its end. -/
def field (name : String) (data : List UInt8) : Part :=
  ⟨name, utf8 "", data, .eof⟩

/-- A file part named "myfile" with file name "upload.bin" and four bytes. -/
def samplePayload : Part :=
  ⟨"myfile", utf8 "upload.bin", [37, 80, 68, 70], .eof⟩

/-- A name part whose body does not decode: reading it yields one byte and
then fails (a quoted-printable part with an unprintable byte). -/
def brokenName : Part :=
  ⟨"name", utf8 "", [120], .lib "quotedprintable: invalid unprintable byte 0x01"⟩

/-- A file part named "myfile" with file name "photo.jpg" and no bytes. -/
def emptyPayload : Part :=
  ⟨"myfile", utf8 "photo.jpg", [], .eof⟩

/-- A bucket whose object writers fail on Close. -/
def closeFailing : Bucket :=
  { sampleBucket with closeFault := some (.lib "googleapi: Error 503: backend unavailable") }

/-! ## Auxiliary facts -/

theorem isValidationError_Errorf (msg : String) (cause : GoError) :
    isValidationError (some (Errorf msg (some cause))) = isValidationError (some cause) := by
  simp [isValidationError, Errorf, errorsAs]

theorem bufString_eq (buf : List UInt8) : bufString buf = buf := rfl

theorem utf8_empty : utf8 "" = [] := rfl

theorem newCalls_of_unchanged (bucket : Bucket) (run : Run) (h : run.bucket = bucket) :
    openedWriters (run.newCalls bucket) = [] := by
  simp [Run.newCalls, h, openedWriters]

theorem ioCopy_buffer_err (p : Part) :
    (¬ ((ioCopy none p).2 ≠ none ∧ (ioCopy none p).2 ≠ some .eof)) ↔ p.readEnd = .eof := by
  unfold ioCopy
  by_cases h : p.readEnd = .eof <;> simp [h]

theorem fieldChecks_eq_some (r : Request) (name file : Part)
    (h : fieldChecks r = some (name, file)) :
    ∃ mpr, r.MultipartReader = .ok mpr ∧ mpr.NextPart.1 = ⟨some name, none⟩
      ∧ name.FormName = "name" ∧ name.readEnd = .eof
      ∧ mpr.NextPart.2.NextPart.1 = ⟨some file, none⟩ ∧ file.FormName = "myfile" := by
  unfold fieldChecks at h
  split at h
  · cases h
  · rename_i mpr hr
    refine ⟨mpr, hr, ?_⟩
    split at h
    · rename_i p1 hp1 he1
      split at h
      · rename_i hc
        split at h
        · rename_i p2 hp2 he2
          split at h
          · rename_i hf
            simp only [Option.some.injEq, Prod.mk.injEq] at h
            obtain ⟨h1, h2⟩ := h
            subst h1 h2
            refine ⟨?_, hc.1, (ioCopy_buffer_err _).1 hc.2, ?_, hf⟩
            · cases hx : mpr.NextPart.1
              simp_all
            · cases hx : mpr.NextPart.2.NextPart.1
              simp_all
          · cases h
        · cases h
      · cases h
    · cases h

theorem upload_calls_of_fieldChecks (bucket : Bucket) (r : Request) (name file : Part)
    (h : fieldChecks r = some (name, file)) :
    ∃ tail, (upload bucket r).newCalls bucket
        = .Object (if name.data = [] then file.FileName else name.data)
          :: .NewWriter (if name.data = [] then file.FileName else name.data)
          :: tail
      ∧ openedWriters tail = [] ∧ ∀ key, Call.Delete key ∉ tail := by
  obtain ⟨mpr, hr, hfirst, hname, hread, hsecond, hfile⟩ := fieldChecks_eq_some r name file h
  have hcopy : ioCopy none name = (name.data, none) := by simp [ioCopy, hread]
  unfold Run.newCalls upload
  simp only [hr, hfirst, hname, hsecond, hfile, hcopy, bufString_eq, utf8_empty]
  generalize (if name.data = [] then file.FileName else name.data) = K
  cases hw : (ioCopy bucket.writeFault file).2 with
  | some e => exact ⟨[], by simp [Bucket.record, hw], rfl, by simp⟩
  | none =>
    cases hc : bucket.closeFault with
    | some e =>
      exact ⟨[.Close K], by simp [Bucket.record, Bucket.Close, hc, hw], rfl, by simp⟩
    | none =>
      cases ha : bucket.attrsFault with
      | some e =>
        exact ⟨[.Close K, .Attrs K],
          by simp [Bucket.record, Bucket.Close, hc, Bucket.Attrs, ha, hw], rfl, by simp⟩
      | none =>
        exact ⟨[.Close K, .Attrs K],
          by simp [Bucket.record, Bucket.Close, hc, Bucket.Attrs, ha, Bucket.read, hw], rfl, by simp⟩

theorem upload_of_fieldChecks_none (bucket : Bucket) (r : Request)
    (h : fieldChecks r = none) :
    (upload bucket r).bucket = bucket
      ∧ ∀ u, (upload bucket r).outcome ≠ .returned u none := by
  unfold fieldChecks at h
  unfold upload
  cases hr : r.MultipartReader with
  | error e => simp
  | ok mpr =>
    simp only [hr] at h ⊢
    cases he1 : mpr.NextPart.1.err with
    | some e => simp
    | none =>
      cases hp1 : mpr.NextPart.1.part with
      | none => simp
      | some p1 =>
        simp only [he1, hp1] at h ⊢
        by_cases hn : p1.FormName = "name"
        · by_cases hread : p1.readEnd = .eof
          · have hcopy : ioCopy none p1 = (p1.data, none) := by simp [ioCopy, hread]
            simp only [hn, hcopy] at h ⊢
            cases he2 : mpr.NextPart.2.NextPart.1.err with
            | some e => simp
            | none =>
              cases hp2 : mpr.NextPart.2.NextPart.1.part with
              | none => simp
              | some p2 =>
                simp only [he2, hp2] at h ⊢
                by_cases hf : p2.FormName = "myfile"
                · simp [hf] at h
                · simp [hf]
          · have hcopy : ioCopy none p1 = (p1.data, some p1.readEnd) := by simp [ioCopy, hread]
            simp [hn, hcopy, hread]
        · simp [hn]

theorem ioCopy_complete (room : Option (Nat × GoError)) (src : Part)
    (h : (ioCopy room src).2 = none) : (ioCopy room src).1 = src.data := by
  unfold ioCopy at h ⊢
  split
  · split
    · rename_i hlt
      simp [hlt] at h
    · split <;> rfl
  · split <;> rfl

theorem upload_outcome_of_fieldChecks (bucket : Bucket) (r : Request) (name file : Part)
    (h : fieldChecks r = some (name, file)) :
    (upload bucket r).outcome =
      match (ioCopy bucket.writeFault file).2 with
      | some e => .returned "" (some (.wrapf "io.Copy failure for file" e))
      | none =>
        match bucket.closeFault with
        | some e => .returned "" (some (.wrapf "unable to close file after writing object" e))
        | none =>
          match bucket.attrsFault with
          | some e => .returned "" (some (.wrapf "cannot generate attrs for object" e))
          | none =>
            .returned (bucket.link
              (if name.data = [] then file.FileName else name.data)) none := by
  obtain ⟨mpr, hr, hfirst, hname, hread, hsecond, hfile⟩ := fieldChecks_eq_some r name file h
  have hcopy : ioCopy none name = (name.data, none) := by simp [ioCopy, hread]
  unfold upload
  simp only [hr, hfirst, hname, hsecond, hfile, hcopy, bufString_eq, utf8_empty]
  generalize (if name.data = [] then file.FileName else name.data) = K
  cases hw : (ioCopy bucket.writeFault file).2 with
  | some e => simp [Bucket.record, hw, Errorf]
  | none =>
    cases hc : bucket.closeFault with
    | some e => simp [Bucket.record, Bucket.Close, hc, hw, Errorf]
    | none =>
      cases ha : bucket.attrsFault with
      | some e => simp [Bucket.record, Bucket.Close, hc, Bucket.Attrs, ha, hw, Errorf]
      | none => simp [Bucket.record, Bucket.Close, hc, Bucket.Attrs, ha, Bucket.read, hw]

theorem upload_stored_of_fieldChecks (bucket : Bucket) (r : Request) (name file : Part)
    (h : fieldChecks r = some (name, file))
    (hw : (ioCopy bucket.writeFault file).2 = none) (hc : bucket.closeFault = none) :
    (upload bucket r).bucket.read
        (if name.data = [] then file.FileName else name.data)
      = some file.data := by
  obtain ⟨mpr, hr, hfirst, hname, hread, hsecond, hfile⟩ := fieldChecks_eq_some r name file h
  have hcopy : ioCopy none name = (name.data, none) := by simp [ioCopy, hread]
  have hdata := ioCopy_complete _ _ hw
  unfold upload
  simp only [hr, hfirst, hname, hsecond, hfile, hcopy, bufString_eq, utf8_empty]
  generalize (if name.data = [] then file.FileName else name.data) = K
  cases ha : bucket.attrsFault with
  | some e => simp [Bucket.record, Bucket.Close, hc, Bucket.Attrs, ha, Bucket.read, hw, hdata]
  | none => simp [Bucket.record, Bucket.Close, hc, Bucket.Attrs, ha, Bucket.read, hw, hdata]

theorem NextPart_sound (mpr : Reader) (h : ∀ res ∈ mpr, res.sound = true) :
    mpr.NextPart.1.sound = true ∧ ∀ res ∈ mpr.NextPart.2, res.sound = true := by
  cases mpr with
  | nil => exact ⟨rfl, by simp [Reader.NextPart]⟩
  | cons res rest =>
    refine ⟨h res (by simp), ?_⟩
    intro x hx
    exact h x (by simp [Reader.NextPart] at hx; simp [hx])

theorem NextPartResult_eq (res : NextPartResult) (p : Option Part) (e : error)
    (hp : res.part = p) (he : res.err = e) : res = ⟨p, e⟩ := by
  cases res
  simp_all

theorem upload_panicked (bucket : Bucket) (r : Request)
    (h : (upload bucket r).outcome = .panicked) :
    ∃ mpr, r.MultipartReader = .ok mpr
      ∧ (mpr.NextPart.1 = ⟨none, none⟩ ∨ mpr.NextPart.2.NextPart.1 = ⟨none, none⟩) := by
  cases hfc : fieldChecks r with
  | some pair =>
    obtain ⟨name, file⟩ := pair
    have hout := upload_outcome_of_fieldChecks bucket r name file hfc
    rw [h] at hout
    cases hw : (ioCopy bucket.writeFault file).2 <;> cases hc : bucket.closeFault <;>
      cases ha : bucket.attrsFault <;> simp [hw, hc, ha] at hout
  | none =>
    unfold upload at h
    cases hr : r.MultipartReader with
    | error e => simp [hr] at h
    | ok mpr =>
      refine ⟨mpr, rfl, ?_⟩
      simp only [hr] at h
      cases he1 : mpr.NextPart.1.err with
      | some e => simp [he1] at h
      | none =>
        cases hp1 : mpr.NextPart.1.part with
        | none =>
          exact Or.inl (NextPartResult_eq _ _ _ hp1 he1)
        | some p1 =>
          right
          simp only [he1, hp1] at h
          by_cases hn : p1.FormName = "name"
          · by_cases hread : p1.readEnd = .eof
            · have hcopy : ioCopy none p1 = (p1.data, none) := by simp [ioCopy, hread]
              simp only [hn, hcopy] at h
              cases he2 : mpr.NextPart.2.NextPart.1.err with
              | some e => simp [he2] at h
              | none =>
                cases hp2 : mpr.NextPart.2.NextPart.1.part with
                | none =>
                  exact NextPartResult_eq _ _ _ hp2 he2
                | some p2 =>
                  exfalso
                  unfold fieldChecks at hfc
                  simp only [hr, he1, hp1, hn, hcopy, he2, hp2] at hfc
                  by_cases hf : p2.FormName = "myfile"
                  · simp [hf] at hfc
                  · simp [he2, hp2, hf] at h
            · have hcopy : ioCopy none p1 = (p1.data, some p1.readEnd) := by
                simp [ioCopy, hread]
              simp [hn, hcopy, hread] at h
          · simp [hn] at h

theorem upload_succeeded (bucket : Bucket) (r : Request) (u : String)
    (h : (upload bucket r).outcome = .returned u none) :
    ∃ name file K, fieldChecks r = some (name, file)
      ∧ K = (if name.data = [] then file.FileName else name.data)
      ∧ openedWriters ((upload bucket r).newCalls bucket) = [K]
      ∧ u = bucket.link K
      ∧ (upload bucket r).bucket.read K = some file.data := by
  cases hfc : fieldChecks r with
  | none => exact absurd h ((upload_of_fieldChecks_none bucket r hfc).2 u)
  | some pair =>
    obtain ⟨name, file⟩ := pair
    have hout := upload_outcome_of_fieldChecks bucket r name file hfc
    obtain ⟨tail, hcalls, hopen, _⟩ := upload_calls_of_fieldChecks bucket r name file hfc
    rw [h] at hout
    cases hw : (ioCopy bucket.writeFault file).2 with
    | some e => simp [hw] at hout
    | none =>
      cases hc : bucket.closeFault with
      | some e => simp [hw, hc] at hout
      | none =>
        cases ha : bucket.attrsFault with
        | some e => simp [hw, hc, ha] at hout
        | none =>
          simp only [hw, hc, ha, Outcome.returned.injEq, and_true] at hout
          have hread := upload_stored_of_fieldChecks bucket r name file hfc hw hc
          refine ⟨name, file, _, rfl, rfl, ?_, hout, hread⟩
          rw [hcalls]
          have : ∀ K, openedWriters (Call.Object K :: Call.NewWriter K :: tail)
              = K :: openedWriters tail := by
            intro K
            simp [openedWriters]
          rw [this, hopen]

/-! ## The field-name checks -/

/-- C1: when the first part is present (the reader opens and the first
NextPart call gives a part without error) and its form-field name is not
"name", upload returns an empty reference and the validation error whose
message is exactly "expected name first"; the bucket is left untouched, so
no object writer is opened and no object is written. -/
theorem upload_first_part_not_name (bucket : Bucket) (r : Request) (mpr : Reader)
    (part : Part) (hr : r.MultipartReader = .ok mpr)
    (hfirst : mpr.NextPart.1 = ⟨some part, none⟩) (hname : part.FormName ≠ "name") :
    (upload bucket r).outcome = .returned "" (some (.validationError "expected name first"))
      ∧ (GoError.validationError "expected name first").Error = "expected name first"
      ∧ isValidationError (some (.validationError "expected name first")) = true
      ∧ (upload bucket r).bucket = bucket
      ∧ openedWriters ((upload bucket r).newCalls bucket) = [] := by
  have hb : (upload bucket r).bucket = bucket := by
    simp [upload, hr, hfirst, hname]
  refine ⟨?_, rfl, rfl, hb, newCalls_of_unchanged _ _ hb⟩
  simp [upload, hr, hfirst, hname]

theorem upload_first_part_not_name_witness :
    (requestOf [field "other" [120]]).MultipartReader = .ok [⟨some (field "other" [120]), none⟩]
      ∧ (Reader.NextPart [⟨some (field "other" [120]), none⟩]).1
        = ⟨some (field "other" [120]), none⟩
      ∧ (field "other" [120]).FormName ≠ "name"
      ∧ (upload sampleBucket (requestOf [field "other" [120]])).outcome
        = .returned "" (some (.validationError "expected name first"))
      ∧ (GoError.validationError "expected name first").Error = "expected name first"
      ∧ isValidationError (some (.validationError "expected name first")) = true
      ∧ (upload sampleBucket (requestOf [field "other" [120]])).bucket = sampleBucket
      ∧ openedWriters ((upload sampleBucket (requestOf [field "other" [120]])).newCalls
          sampleBucket) = [] :=
  ⟨rfl, rfl, by decide,
    upload_first_part_not_name sampleBucket (requestOf [field "other" [120]])
      [⟨some (field "other" [120]), none⟩] (field "other" [120]) rfl rfl (by decide)⟩

/-- C2, at a body without parts: the first NextPart call reports io.EOF, and
upload returns that failure wrapped, an error for which isValidationError is
false; it is not the validation error "expected name first". -/
theorem upload_no_first_part_not_validation :
    (requestOf []).MultipartReader = .ok []
      ∧ (Reader.NextPart []).1 = ⟨none, some .eof⟩
      ∧ (upload sampleBucket (requestOf [])).outcome
          = .returned "" (some (.wrapf "mpr.NextPart failure on first read" .eof))
      ∧ isValidationError (some (.wrapf "mpr.NextPart failure on first read" .eof)) = false
      ∧ (upload sampleBucket (requestOf [])).outcome
          ≠ .returned "" (some (.validationError "expected name first")) :=
  ⟨rfl, rfl, by decide, by decide, by decide⟩

/-- C2, amended: when the multipart body has no first part (the first
NextPart call reports io.EOF), upload returns an empty reference and the
error "mpr.NextPart failure on first read: EOF", which wraps io.EOF and for
which isValidationError is false; the bucket is left untouched, so no object
is written. -/
theorem upload_no_first_part (bucket : Bucket) (r : Request) (mpr : Reader)
    (hr : r.MultipartReader = .ok mpr) (hfirst : mpr.NextPart.1.err = some .eof) :
    (upload bucket r).outcome
        = .returned "" (some (.wrapf "mpr.NextPart failure on first read" .eof))
      ∧ (GoError.wrapf "mpr.NextPart failure on first read" .eof).Error
          = "mpr.NextPart failure on first read: EOF"
      ∧ isValidationError (some (.wrapf "mpr.NextPart failure on first read" .eof)) = false
      ∧ (upload bucket r).bucket = bucket
      ∧ openedWriters ((upload bucket r).newCalls bucket) = [] := by
  have hb : (upload bucket r).bucket = bucket := by
    simp [upload, hr, hfirst]
  refine ⟨?_, by decide, rfl, hb, newCalls_of_unchanged _ _ hb⟩
  simp [upload, hr, hfirst, Errorf]

theorem upload_no_first_part_witness :
    (requestOf []).MultipartReader = .ok []
      ∧ (Reader.NextPart []).1.err = some .eof
      ∧ (upload sampleBucket (requestOf [])).outcome
        = .returned "" (some (.wrapf "mpr.NextPart failure on first read" .eof))
      ∧ (GoError.wrapf "mpr.NextPart failure on first read" .eof).Error
          = "mpr.NextPart failure on first read: EOF"
      ∧ isValidationError (some (.wrapf "mpr.NextPart failure on first read" .eof)) = false
      ∧ (upload sampleBucket (requestOf [])).bucket = sampleBucket
      ∧ openedWriters ((upload sampleBucket (requestOf [])).newCalls sampleBucket) = [] :=
  ⟨rfl, rfl, upload_no_first_part sampleBucket (requestOf []) [] rfl rfl⟩

/-- C3, at a request whose first part is named "name" but fails to be read,
and whose second part is present under the name "wrong": upload returns the
wrapped copy failure, for which isValidationError is false, and not the
validation error "file required". -/
theorem upload_second_part_unreadable_name :
    (requestOf [brokenName, field "wrong" [120]]).MultipartReader
        = .ok [⟨some brokenName, none⟩, ⟨some (field "wrong" [120]), none⟩]
      ∧ brokenName.FormName = "name"
      ∧ (field "wrong" [120]).FormName ≠ "myfile"
      ∧ (upload sampleBucket (requestOf [brokenName, field "wrong" [120]])).outcome
          = .returned "" (some (.wrapf "io.Copy failure for name" brokenName.readEnd))
      ∧ isValidationError (some (.wrapf "io.Copy failure for name" brokenName.readEnd)) = false
      ∧ (upload sampleBucket (requestOf [brokenName, field "wrong" [120]])).outcome
          ≠ .returned "" (some (.validationError "file required")) :=
  ⟨rfl, rfl, by decide, by decide, by decide, by decide⟩

/-- C3, amended: when the first part is named "name" and is read to its end
without error, and the second part is present (the second NextPart call
gives a part without error) with a form-field name other than "myfile",
upload returns an empty reference and the validation error whose message is
exactly "file required", whatever the content of the name part; the bucket
is left untouched, so no object writer is opened and no object is written. -/
theorem upload_second_part_not_myfile (bucket : Bucket) (r : Request) (mpr : Reader)
    (name file : Part) (hr : r.MultipartReader = .ok mpr)
    (hfirst : mpr.NextPart.1 = ⟨some name, none⟩) (hname : name.FormName = "name")
    (hread : name.readEnd = .eof)
    (hsecond : mpr.NextPart.2.NextPart.1 = ⟨some file, none⟩)
    (hfile : file.FormName ≠ "myfile") :
    (upload bucket r).outcome = .returned "" (some (.validationError "file required"))
      ∧ (GoError.validationError "file required").Error = "file required"
      ∧ isValidationError (some (.validationError "file required")) = true
      ∧ (upload bucket r).bucket = bucket
      ∧ openedWriters ((upload bucket r).newCalls bucket) = [] := by
  have hb : (upload bucket r).bucket = bucket := by
    simp [upload, hr, hfirst, hname, hread, hsecond, hfile, ioCopy]
  refine ⟨?_, rfl, rfl, hb, newCalls_of_unchanged _ _ hb⟩
  simp [upload, hr, hfirst, hname, hread, hsecond, hfile, ioCopy]

theorem upload_second_part_not_myfile_witness :
    (requestOf [field "name" [120], field "wrong" [1, 2]]).MultipartReader
        = .ok [⟨some (field "name" [120]), none⟩, ⟨some (field "wrong" [1, 2]), none⟩]
      ∧ (field "name" [120]).FormName = "name"
      ∧ (field "name" [120]).readEnd = .eof
      ∧ (field "wrong" [1, 2]).FormName ≠ "myfile"
      ∧ (upload sampleBucket (requestOf [field "name" [120], field "wrong" [1, 2]])).outcome
        = .returned "" (some (.validationError "file required"))
      ∧ (GoError.validationError "file required").Error = "file required"
      ∧ isValidationError (some (.validationError "file required")) = true
      ∧ (upload sampleBucket (requestOf [field "name" [120], field "wrong" [1, 2]])).bucket
          = sampleBucket
      ∧ openedWriters ((upload sampleBucket
          (requestOf [field "name" [120], field "wrong" [1, 2]])).newCalls sampleBucket) = [] :=
  ⟨rfl, rfl, rfl, by decide,
    upload_second_part_not_myfile sampleBucket
      (requestOf [field "name" [120], field "wrong" [1, 2]])
      [⟨some (field "name" [120]), none⟩, ⟨some (field "wrong" [1, 2]), none⟩]
      (field "name" [120]) (field "wrong" [1, 2]) rfl rfl rfl rfl rfl (by decide)⟩

/-- C4, at a body whose only part is named "name": the second NextPart call
reports io.EOF, and upload returns that failure wrapped, an error for which
isValidationError is false; it is not the validation error
"file required". -/
theorem upload_no_second_part_not_validation :
    (requestOf [field "name" [120]]).MultipartReader = .ok [⟨some (field "name" [120]), none⟩]
      ∧ (Reader.NextPart (Reader.NextPart [⟨some (field "name" [120]), none⟩]).2).1
          = ⟨none, some .eof⟩
      ∧ (upload sampleBucket (requestOf [field "name" [120]])).outcome
          = .returned "" (some (.wrapf "mpr.NextPart failure on second read" .eof))
      ∧ isValidationError (some (.wrapf "mpr.NextPart failure on second read" .eof)) = false
      ∧ (upload sampleBucket (requestOf [field "name" [120]])).outcome
          ≠ .returned "" (some (.validationError "file required")) :=
  ⟨rfl, rfl, by decide, by decide, by decide⟩

/-- C4, amended: when the request holds one part only, named "name" and read
to its end (the second NextPart call reports io.EOF), upload returns an
empty reference and the error "mpr.NextPart failure on second read: EOF",
which wraps io.EOF and for which isValidationError is false; the bucket is
left untouched, so no object is written. -/
theorem upload_no_second_part (bucket : Bucket) (r : Request) (mpr : Reader)
    (name : Part) (hr : r.MultipartReader = .ok mpr)
    (hfirst : mpr.NextPart.1 = ⟨some name, none⟩) (hname : name.FormName = "name")
    (hread : name.readEnd = .eof)
    (hsecond : mpr.NextPart.2.NextPart.1.err = some .eof) :
    (upload bucket r).outcome
        = .returned "" (some (.wrapf "mpr.NextPart failure on second read" .eof))
      ∧ (GoError.wrapf "mpr.NextPart failure on second read" .eof).Error
          = "mpr.NextPart failure on second read: EOF"
      ∧ isValidationError (some (.wrapf "mpr.NextPart failure on second read" .eof)) = false
      ∧ (upload bucket r).bucket = bucket
      ∧ openedWriters ((upload bucket r).newCalls bucket) = [] := by
  have hb : (upload bucket r).bucket = bucket := by
    simp [upload, hr, hfirst, hname, hread, hsecond, ioCopy]
  refine ⟨?_, by decide, rfl, hb, newCalls_of_unchanged _ _ hb⟩
  simp [upload, hr, hfirst, hname, hread, hsecond, ioCopy, Errorf]

theorem upload_no_second_part_witness :
    (requestOf [field "name" [120]]).MultipartReader = .ok [⟨some (field "name" [120]), none⟩]
      ∧ (field "name" [120]).FormName = "name"
      ∧ (field "name" [120]).readEnd = .eof
      ∧ (Reader.NextPart (Reader.NextPart [⟨some (field "name" [120]), none⟩]).2).1.err
        = some .eof
      ∧ (upload sampleBucket (requestOf [field "name" [120]])).outcome
        = .returned "" (some (.wrapf "mpr.NextPart failure on second read" .eof))
      ∧ (GoError.wrapf "mpr.NextPart failure on second read" .eof).Error
          = "mpr.NextPart failure on second read: EOF"
      ∧ isValidationError (some (.wrapf "mpr.NextPart failure on second read" .eof)) = false
      ∧ (upload sampleBucket (requestOf [field "name" [120]])).bucket = sampleBucket
      ∧ openedWriters ((upload sampleBucket (requestOf [field "name" [120]])).newCalls
          sampleBucket) = [] :=
  ⟨rfl, rfl, rfl, rfl,
    upload_no_second_part sampleBucket (requestOf [field "name" [120]])
      [⟨some (field "name" [120]), none⟩] (field "name" [120]) rfl rfl rfl rfl rfl⟩

/-! ## The object that is written -/

/-- C5: for a request that passes both field-name checks, upload opens the
object, and the writer on it, under the full content of the name part, byte
for byte, when that content is non-empty, whatever the file name of the file
part, and under the file name of the file part when the content of the name
part is empty. -/
theorem upload_object_key (bucket : Bucket) (r : Request) (name file : Part)
    (h : fieldChecks r = some (name, file)) :
    (name.data ≠ [] →
        ((upload bucket r).newCalls bucket).take 2
            = [.Object name.data, .NewWriter name.data]
          ∧ openedWriters ((upload bucket r).newCalls bucket) = [name.data])
      ∧ (name.data = [] →
        ((upload bucket r).newCalls bucket).take 2
            = [.Object file.FileName, .NewWriter file.FileName]
          ∧ openedWriters ((upload bucket r).newCalls bucket) = [file.FileName]) := by
  obtain ⟨tail, hcalls, hopen, _⟩ := upload_calls_of_fieldChecks bucket r name file h
  have hw : ∀ K, openedWriters (Call.Object K :: Call.NewWriter K :: tail) = [K] := by
    intro K
    have : openedWriters (Call.Object K :: Call.NewWriter K :: tail) = K :: openedWriters tail := by
      simp [openedWriters]
    rw [this, hopen]
  constructor
  · intro hne
    rw [hcalls]
    simp only [hne, if_false]
    exact ⟨rfl, hw _⟩
  · intro he
    rw [hcalls]
    simp only [he, if_true]
    exact ⟨rfl, hw _⟩

theorem upload_object_key_witness :
    fieldChecks (requestOf [field "name" [195, 169, 46, 116, 120, 116], samplePayload])
        = some (field "name" [195, 169, 46, 116, 120, 116], samplePayload)
      ∧ (field "name" [195, 169, 46, 116, 120, 116]).data = utf8 "é.txt"
      ∧ ((upload sampleBucket
          (requestOf [field "name" [195, 169, 46, 116, 120, 116], samplePayload])).newCalls
          sampleBucket).take 2
        = [.Object [195, 169, 46, 116, 120, 116], .NewWriter [195, 169, 46, 116, 120, 116]]
      ∧ openedWriters ((upload sampleBucket
          (requestOf [field "name" [195, 169, 46, 116, 120, 116], samplePayload])).newCalls
          sampleBucket)
        = [utf8 "é.txt"]
      ∧ fieldChecks (requestOf [field "name" [], samplePayload])
        = some (field "name" [], samplePayload)
      ∧ ((upload sampleBucket (requestOf [field "name" [], samplePayload])).newCalls
          sampleBucket).take 2
        = [.Object (utf8 "upload.bin"), .NewWriter (utf8 "upload.bin")]
      ∧ openedWriters ((upload sampleBucket
          (requestOf [field "name" [], samplePayload])).newCalls sampleBucket)
        = [utf8 "upload.bin"] :=
  ⟨by decide, by decide,
    ((upload_object_key sampleBucket
      (requestOf [field "name" [195, 169, 46, 116, 120, 116], samplePayload])
      (field "name" [195, 169, 46, 116, 120, 116]) samplePayload (by decide)).1 (by decide)).1,
    ((upload_object_key sampleBucket
      (requestOf [field "name" [195, 169, 46, 116, 120, 116], samplePayload])
      (field "name" [195, 169, 46, 116, 120, 116]) samplePayload (by decide)).1 (by decide)).2,
    by decide,
    ((upload_object_key sampleBucket (requestOf [field "name" [], samplePayload])
      (field "name" []) samplePayload (by decide)).2 rfl).1,
    ((upload_object_key sampleBucket (requestOf [field "name" [], samplePayload])
      (field "name" []) samplePayload (by decide)).2 rfl).2⟩

/-- C6: round trip.  When upload succeeds, the request has passed both
field-name checks, one writer was opened, under the resolved key K, the
reference returned is the link of K, and reading the object K back from the
bucket yields exactly the payload of the file part: the same bytes in the
same order, hence of the same length, also when the payload is empty.  The
bucket is one in which a closed object holds the bytes written to its
writer. -/
theorem upload_round_trip (bucket : Bucket) (r : Request) (u : String)
    (h : (upload bucket r).outcome = .returned u none) :
    ∃ name file K, fieldChecks r = some (name, file)
      ∧ K = (if name.data = [] then file.FileName else name.data)
      ∧ openedWriters ((upload bucket r).newCalls bucket) = [K]
      ∧ u = bucket.link K
      ∧ (upload bucket r).bucket.read K = some file.data
      ∧ (((upload bucket r).bucket.read K).map List.length) = some file.data.length := by
  obtain ⟨name, file, K, hfc, hK, hopen, hu, hread⟩ := upload_succeeded bucket r u h
  exact ⟨name, file, K, hfc, hK, hopen, hu, hread, by rw [hread]; rfl⟩

theorem upload_round_trip_witness :
    (upload sampleBucket (requestOf [field "name" [], samplePayload])).outcome
        = .returned "https://storage.example/upload.bin" none
      ∧ (upload sampleBucket (requestOf [field "name" [], emptyPayload])).outcome
        = .returned "https://storage.example/photo.jpg" none
      ∧ (∃ name file K,
        fieldChecks (requestOf [field "name" [], samplePayload]) = some (name, file)
        ∧ K = (if name.data = [] then file.FileName else name.data)
        ∧ openedWriters ((upload sampleBucket
            (requestOf [field "name" [], samplePayload])).newCalls sampleBucket) = [K]
        ∧ "https://storage.example/upload.bin" = sampleBucket.link K
        ∧ (upload sampleBucket (requestOf [field "name" [], samplePayload])).bucket.read K
          = some file.data
        ∧ (((upload sampleBucket (requestOf [field "name" [], samplePayload])).bucket.read
            K).map List.length) = some file.data.length)
      ∧ (∃ name file K,
        fieldChecks (requestOf [field "name" [], emptyPayload]) = some (name, file)
        ∧ K = (if name.data = [] then file.FileName else name.data)
        ∧ openedWriters ((upload sampleBucket
            (requestOf [field "name" [], emptyPayload])).newCalls sampleBucket) = [K]
        ∧ "https://storage.example/photo.jpg" = sampleBucket.link K
        ∧ (upload sampleBucket (requestOf [field "name" [], emptyPayload])).bucket.read K
          = some file.data
        ∧ (((upload sampleBucket (requestOf [field "name" [], emptyPayload])).bucket.read
            K).map List.length) = some file.data.length) :=
  ⟨by decide, by decide,
    upload_round_trip sampleBucket (requestOf [field "name" [], samplePayload])
      "https://storage.example/upload.bin" (by decide),
    upload_round_trip sampleBucket (requestOf [field "name" [], emptyPayload])
      "https://storage.example/photo.jpg" (by decide)⟩

/-! ## The response -/

/-- C7, at a first part named "other" and at a body without parts: the
response to the validation error has status 400 and the body
"expected name first" followed by a newline, the response to the other error
has status 500 and the body "internal server error" followed by a newline;
neither body is the bare message. -/
theorem Upload_body_ends_with_newline :
    (upload sampleBucket (requestOf [field "other" [120]])).outcome
        = .returned "" (some (.validationError "expected name first"))
      ∧ Upload sampleBucket (requestOf [field "other" [120]])
        = some ⟨400, "expected name first\n"⟩
      ∧ (Upload sampleBucket (requestOf [field "other" [120]])).map Response.body
        ≠ some "expected name first"
      ∧ (upload sampleBucket (requestOf [])).outcome
        = .returned "" (some (.wrapf "mpr.NextPart failure on first read" .eof))
      ∧ Upload sampleBucket (requestOf []) = some ⟨500, "internal server error\n"⟩
      ∧ (Upload sampleBucket (requestOf [])).map Response.body
        ≠ some "internal server error" := by
  decide

/-- C7, amended: the response of Upload is determined by the class of the
outcome of upload alone.  On success the status is 200 and the body is the
reference returned, the link of the stored object, followed by a newline; on
an error for which isValidationError holds the status is 400 and the body is
the message of that error followed by a newline; on every other error the
status is 500 and the body is the fixed text "internal server error"
followed by a newline, the same for every cause. -/
theorem Upload_response (bucket : Bucket) (r : Request) (u : String) (err : error)
    (h : (upload bucket r).outcome = .returned u err) :
    (err = none →
        Upload bucket r = some ⟨200, u ++ "\n"⟩ ∧ ∃ key, u = bucket.link key)
      ∧ (∀ e, err = some e → isValidationError err = true →
        Upload bucket r = some ⟨400, e.Error ++ "\n"⟩)
      ∧ (∀ e, err = some e → isValidationError err = false →
        Upload bucket r = some ⟨500, "internal server error\n"⟩) := by
  refine ⟨?_, ?_, ?_⟩
  · intro he
    subst he
    obtain ⟨name, file, K, _, _, _, hu, _⟩ := upload_succeeded bucket r u h
    exact ⟨by simp [Upload, h, StatusOK], K, hu⟩
  · intro e he hv
    subst he
    simp [Upload, h, hv, httpError, StatusBadRequest]
  · intro e he hv
    subst he
    simp [Upload, h, hv, httpError, StatusInternalServerError]

theorem Upload_response_witness :
    (upload sampleBucket (requestOf [field "name" [120], field "wrong" [1, 2]])).outcome
        = .returned "" (some (.validationError "file required"))
      ∧ Upload sampleBucket (requestOf [field "name" [120], field "wrong" [1, 2]])
        = some ⟨400, "file required\n"⟩
      ∧ (upload closeFailing (requestOf [field "name" [], samplePayload])).outcome
        = .returned "" (some (.wrapf "unable to close file after writing object"
            (.lib "googleapi: Error 503: backend unavailable")))
      ∧ Upload closeFailing (requestOf [field "name" [], samplePayload])
        = some ⟨500, "internal server error\n"⟩
      ∧ (upload sampleBucket (requestOf [field "name" [], samplePayload])).outcome
        = .returned "https://storage.example/upload.bin" none
      ∧ Upload sampleBucket (requestOf [field "name" [], samplePayload])
        = some ⟨200, "https://storage.example/upload.bin\n"⟩ :=
  ⟨by decide,
    (Upload_response sampleBucket (requestOf [field "name" [120], field "wrong" [1, 2]]) ""
      (some (.validationError "file required")) (by decide)).2.1 _ rfl (by decide),
    by decide,
    (Upload_response closeFailing (requestOf [field "name" [], samplePayload]) ""
      (some (.wrapf "unable to close file after writing object"
        (.lib "googleapi: Error 503: backend unavailable"))) (by decide)).2.2 _ rfl (by decide),
    by decide,
    ((Upload_response sampleBucket (requestOf [field "name" [], samplePayload])
      "https://storage.example/upload.bin" none (by decide)).1 rfl).1⟩

/-! ## Failures -/

/-- C8: when opening the multipart reader fails, or, for a request that
passes both field-name checks, copying the file part into the object writer
fails, or the copy succeeds and closing the writer fails, or both succeed
and fetching the attributes fails, each with a cause for which
isValidationError is false, upload returns an empty reference together with
an error that wraps the cause and for which isValidationError is false;
Upload answers it with status 500. -/
theorem upload_internal_failure (bucket : Bucket) (r : Request) (cause : GoError)
    (hcause : isValidationError (some cause) = false)
    (hfail : r.MultipartReader = .error cause
      ∨ ∃ name file, fieldChecks r = some (name, file)
        ∧ ((ioCopy bucket.writeFault file).2 = some cause
          ∨ ((ioCopy bucket.writeFault file).2 = none ∧ bucket.closeFault = some cause)
          ∨ ((ioCopy bucket.writeFault file).2 = none ∧ bucket.closeFault = none
              ∧ bucket.attrsFault = some cause))) :
    ∃ msg, (upload bucket r).outcome = .returned "" (some (.wrapf msg cause))
      ∧ isValidationError (some (.wrapf msg cause)) = false
      ∧ Upload bucket r = some ⟨500, "internal server error\n"⟩ := by
  have hv : ∀ msg, isValidationError (some (.wrapf msg cause)) = false := by
    intro msg
    simpa [isValidationError, errorsAs] using hcause
  have key : ∀ msg, (upload bucket r).outcome = .returned "" (some (.wrapf msg cause)) →
      ∃ msg, (upload bucket r).outcome = .returned "" (some (.wrapf msg cause))
        ∧ isValidationError (some (.wrapf msg cause)) = false
        ∧ Upload bucket r = some ⟨500, "internal server error\n"⟩ := by
    intro msg hout
    refine ⟨msg, hout, hv msg, ?_⟩
    simp [Upload, hout, hv msg, httpError, StatusInternalServerError]
  rcases hfail with hr | ⟨name, file, hfc, hsite⟩
  · exact key "r.MultipartReader failure" (by simp [upload, hr, Errorf])
  · have hout := upload_outcome_of_fieldChecks bucket r name file hfc
    rcases hsite with hw | ⟨hw, hc⟩ | ⟨hw, hc, ha⟩
    · exact key "io.Copy failure for file" (by simp [hout, hw])
    · exact key "unable to close file after writing object" (by simp [hout, hw, hc])
    · exact key "cannot generate attrs for object" (by simp [hout, hw, hc, ha])

theorem upload_internal_failure_witness :
    isValidationError (some (.lib "googleapi: Error 503: backend unavailable")) = false
      ∧ fieldChecks (requestOf [field "name" [], samplePayload])
        = some (field "name" [], samplePayload)
      ∧ (ioCopy closeFailing.writeFault samplePayload).2 = none
      ∧ closeFailing.closeFault = some (.lib "googleapi: Error 503: backend unavailable")
      ∧ ∃ msg, (upload closeFailing (requestOf [field "name" [], samplePayload])).outcome
          = .returned "" (some (.wrapf msg (.lib "googleapi: Error 503: backend unavailable")))
        ∧ isValidationError
            (some (.wrapf msg (.lib "googleapi: Error 503: backend unavailable"))) = false
        ∧ Upload closeFailing (requestOf [field "name" [], samplePayload])
          = some ⟨500, "internal server error\n"⟩ :=
  ⟨by decide, by decide, by decide, by decide,
    upload_internal_failure closeFailing (requestOf [field "name" [], samplePayload])
      (.lib "googleapi: Error 503: backend unavailable") (by decide)
      (Or.inr ⟨field "name" [], samplePayload, by decide,
        Or.inr (Or.inl ⟨by decide, by decide⟩)⟩)⟩

/-! ## Effects on the bucket -/

/-- C9: upload opens at most one object writer on the bucket: exactly one
when both field-name checks pass, whatever faults the copy, the close and
the attribute fetch meet, and none when upload stops before, in which case
the bucket is left untouched; and upload never calls Delete, so the object
of a failed write is left as it is. -/
theorem upload_opens_at_most_one_writer (bucket : Bucket) (r : Request) :
    (openedWriters ((upload bucket r).newCalls bucket)).length ≤ 1
      ∧ ((fieldChecks r).isSome = true →
        (openedWriters ((upload bucket r).newCalls bucket)).length = 1)
      ∧ (fieldChecks r = none →
        (openedWriters ((upload bucket r).newCalls bucket)).length = 0
          ∧ (upload bucket r).bucket = bucket)
      ∧ ∀ key, Call.Delete key ∉ (upload bucket r).newCalls bucket := by
  cases hfc : fieldChecks r with
  | none =>
    have hb := (upload_of_fieldChecks_none bucket r hfc).1
    have hnew : (upload bucket r).newCalls bucket = [] := by
      simp [Run.newCalls, hb]
    simp [hnew, openedWriters, hb]
  | some pair =>
    obtain ⟨name, file⟩ := pair
    obtain ⟨tail, hcalls, hopen, hdel⟩ := upload_calls_of_fieldChecks bucket r name file hfc
    have hone : ∀ K, openedWriters (Call.Object K :: Call.NewWriter K :: tail) = [K] := by
      intro K
      have : openedWriters (Call.Object K :: Call.NewWriter K :: tail)
          = K :: openedWriters tail := by
        simp [openedWriters]
      rw [this, hopen]
    rw [hcalls, hone]
    refine ⟨by simp, by simp, by simp, ?_⟩
    intro key hmem
    simp only [List.mem_cons] at hmem
    rcases hmem with hmem | hmem | hmem
    · cases hmem
    · cases hmem
    · exact hdel key hmem

theorem upload_opens_at_most_one_writer_witness :
    (fieldChecks (requestOf [field "name" [], samplePayload])).isSome = true
      ∧ (openedWriters ((upload closeFailing
          (requestOf [field "name" [], samplePayload])).newCalls closeFailing)).length = 1
      ∧ (upload closeFailing (requestOf [field "name" [], samplePayload])).newCalls closeFailing
        = [.Object (utf8 "upload.bin"), .NewWriter (utf8 "upload.bin"),
            .Close (utf8 "upload.bin")]
      ∧ fieldChecks (requestOf [field "name" [120]]) = none
      ∧ (openedWriters ((upload sampleBucket
          (requestOf [field "name" [120]])).newCalls sampleBucket)).length = 0 :=
  ⟨by decide,
    (upload_opens_at_most_one_writer closeFailing
      (requestOf [field "name" [], samplePayload])).2.1 (by decide),
    by decide, by decide,
    ((upload_opens_at_most_one_writer sampleBucket
      (requestOf [field "name" [120]])).2.2.1 (by decide)).1⟩

/-! ## Nil parts -/

/-- C10: upload looks at a part only after the NextPart call that gave it
returned no error.  When the first NextPart call fails, upload returns that
failure, wrapped, whatever the part returned with it; when the second call
fails, likewise; and on a reader that keeps the contract of NextPart (the
part is nil exactly when the error is not) upload never panics, that is, it
never calls FormName or FileName on a nil part. -/
theorem upload_checks_err_before_part (bucket : Bucket) (r : Request) :
    (∀ mpr e, r.MultipartReader = .ok mpr → mpr.NextPart.1.err = some e →
        (upload bucket r).outcome
          = .returned "" (some (.wrapf "mpr.NextPart failure on first read" e)))
      ∧ (∀ mpr name e, r.MultipartReader = .ok mpr →
        mpr.NextPart.1 = ⟨some name, none⟩ → name.FormName = "name" → name.readEnd = .eof →
        mpr.NextPart.2.NextPart.1.err = some e →
        (upload bucket r).outcome
          = .returned "" (some (.wrapf "mpr.NextPart failure on second read" e)))
      ∧ ((∀ mpr, r.MultipartReader = .ok mpr → ∀ res ∈ mpr, res.sound = true) →
        (upload bucket r).outcome ≠ .panicked) := by
  refine ⟨?_, ?_, ?_⟩
  · intro mpr e hr he
    simp [upload, hr, he, Errorf]
  · intro mpr name e hr hfirst hname hread he
    simp [upload, hr, hfirst, hname, hread, he, ioCopy, Errorf]
  · intro hsound hp
    obtain ⟨mpr, hr, hcase⟩ := upload_panicked bucket r hp
    have h1 := NextPart_sound mpr (hsound mpr hr)
    rcases hcase with hc | hc
    · have hs := h1.1
      rw [hc] at hs
      exact absurd hs (by decide)
    · have hs := (NextPart_sound _ h1.2).1
      rw [hc] at hs
      exact absurd hs (by decide)

theorem upload_checks_err_before_part_witness :
    (∀ res ∈ [(⟨some (field "name" [120]), none⟩ : NextPartResult),
        ⟨none, some (.lib "multipart: NextPart: EOF")⟩], res.sound = true)
      ∧ (upload sampleBucket ⟨.ok [⟨some (field "name" [120]), none⟩,
          ⟨none, some (.lib "multipart: NextPart: EOF")⟩]⟩).outcome
        = .returned "" (some (.wrapf "mpr.NextPart failure on second read"
            (.lib "multipart: NextPart: EOF")))
      ∧ (upload sampleBucket ⟨.ok [⟨some (field "name" [120]), none⟩,
          ⟨none, some (.lib "multipart: NextPart: EOF")⟩]⟩).outcome ≠ .panicked :=
  ⟨by decide,
    (upload_checks_err_before_part sampleBucket ⟨.ok [⟨some (field "name" [120]), none⟩,
      ⟨none, some (.lib "multipart: NextPart: EOF")⟩]⟩).2.1 _ (field "name" [120]) _
      rfl rfl rfl rfl rfl,
    (upload_checks_err_before_part sampleBucket ⟨.ok [⟨some (field "name" [120]), none⟩,
      ⟨none, some (.lib "multipart: NextPart: EOF")⟩]⟩).2.2 (by
        intro mpr hr
        cases hr
        decide)⟩

end handler
